import Mathlib

/-!
# Reverse proxy handler of gonobo/jsonapi-reverse-proxy

Shallow embedding of `reverse_proxy.go` (package proxy): the handler record, its
constructor `NewReverseProxyHandler` and the forwarding pipeline `ServeJSONAPI`.

Go values are modelled as follows.

* `error` is its message (`GoError`).
* A Go map is the list of its entries in the order in which the runtime happens to
  range over it; the keys of such a list are pairwise distinct.
* A Go string is a string of bytes; a character stands for the byte with its code.
* The body of a backend response is what reading it to the end yields (`ReadCloser`).
* The body of a request is a reader with state (`BodyReader`).  `Clone` copies the
  `Body` field shallowly, so the inbound request and its clone share one reader: the
  transport client returns the state in which it leaves the reader of the request it is
  given, and that state is the one of the inbound body after the call.
* The transport client (`jsonapi.Doer`) is a state-passing function: the handler
  threads the client state and records every request it hands to `Do`.
* A run-time panic is an explicit outcome (`Outcome.panicked`).

Functions of the standard library and of the `jsonapi` library are not part of
`reverse_proxy.go`.  `url.Parse` and `json.Unmarshal` are parameters of the model
(`Lib`); `http.DefaultClient` is a parameter of the constructor.
-/

namespace Proxy

/-- Go `error` value, identified with its message. -/
abbrev GoError := String

/-- Go `[]byte`. -/
abbrev Bytes := List UInt8

/-- Go `io.ReadCloser` of a backend response, identified with the outcome of reading it to
the end. -/
abbrev ReadCloser := Except GoError Bytes

/-- Go `io.ReadCloser` of a request body, with its state: the bytes not yet read and
whether it has been closed. -/
structure BodyReader where
  unread : Bytes
  closed : Bool
  deriving DecidableEq, Repr

/-- Go `io.ReadAll`. -/
def ioReadAll (body : ReadCloser) : Except GoError Bytes := body

/-- Run-time panics the handler can raise. -/
inductive Panic where
  | nilDereference
  | indexOutOfRange
  deriving DecidableEq, Repr

/-- Go slice indexing `xs[i]`: panics when `i` is not below `len(xs)`. -/
def index {α : Type} : List α → Nat → Except Panic α
  | [], _ => .error .indexOutOfRange
  | x :: _, 0 => .ok x
  | _ :: xs, i + 1 => index xs i

/-! ## jsonapi request context -/

/-- Operation kinds of an access context. -/
inductive RequestType where
  | search
  | create
  | fetch
  | update
  | delete
  | fetchRef
  | fetchRelated
  deriving DecidableEq, Repr

/-- Modelled from the spec: `jsonapi.RequestContext` (the spec's AccessContext), declared in
the `jsonapi` library: resource type, optional resource id, optional relationship
reference name and operation kind. -/
structure RequestContext where
  ResourceType : String
  ResourceID : Option String
  Relationship : Option String
  Kind : RequestType
  deriving DecidableEq, Repr

/-- Modelled from the spec: `jsonapi.DefaultURLResolver()`, declared in the `jsonapi` library.
The default strategy table of the spec (and of the doc comment of
`NewReverseProxyHandler`): `base/type` for search and create, `base/type/id` for fetch,
update and delete, `base/type/id/relationships/ref` for fetchRef and `base/type/id/ref`
for fetchRelated.  An absent id or reference name contributes the empty string. -/
def DefaultURLResolver (ctx : RequestContext) (baseURL : String) : String :=
  let id := ctx.ResourceID.getD ""
  let ref := ctx.Relationship.getD ""
  match ctx.Kind with
  | .search | .create => baseURL ++ "/" ++ ctx.ResourceType
  | .fetch | .update | .delete => baseURL ++ "/" ++ ctx.ResourceType ++ "/" ++ id
  | .fetchRef => baseURL ++ "/" ++ ctx.ResourceType ++ "/" ++ id ++ "/relationships/" ++ ref
  | .fetchRelated => baseURL ++ "/" ++ ctx.ResourceType ++ "/" ++ id ++ "/" ++ ref

/-! ## net/http values -/

/-- Go `context.Context` as far as the handler observes it: the request context stored
under the jsonapi key, and whether the context has been cancelled. -/
structure Context where
  jsonapi : Option RequestContext
  cancelled : Bool
  deriving DecidableEq, Repr

/-- Go `context.Background()`: carries no values and is never cancelled. -/
def Context.Background : Context := ⟨none, false⟩

/-- Library function `jsonapi.GetContext`: the pointer stored in the context, nil when
there is none. -/
def GetContext (c : Context) : Option RequestContext := c.jsonapi

/-- Go `url.URL`, without the fields `User`, `RawPath`, `RawFragment`, `ForceQuery` and
`OmitHost`. -/
structure URL where
  Scheme : String
  Opaque : String
  Host : String
  Path : String
  RawQuery : String
  Fragment : String
  deriving DecidableEq, Repr

/-- Go `(*URL).IsAbs`: the URL has a scheme. -/
def URL.IsAbs (u : URL) : Bool := u.Scheme != ""

/-- Go `http.Header`, a `map[string][]string`, as the list of its entries. -/
abbrev Header := List (String × List String)

/-- Go `http.Request`. -/
structure Request where
  Method : String
  URL : URL
  Header : Header
  Body : BodyReader
  ctx : Context
  deriving DecidableEq, Repr

/-- Go `(*Request).Clone(ctx)`: a copy of the request whose context is `ctx`.  The URL and
the headers are copied deeply; the `Body` field is copied shallowly, so the clone reads
from the reader of `r`. -/
def Request.Clone (r : Request) (ctx : Context) : Request := { r with ctx := ctx }

/-- The request `r` once the reader behind its `Body` field is in state `body`. -/
def Request.withBody (r : Request) (body : BodyReader) : Request := { r with Body := body }

/-- Go `http.Response` as returned by the transport client. -/
structure HttpResponse where
  StatusCode : Int
  Header : Header
  Body : ReadCloser

/-! ## jsonapi responses -/

/-- Go `map[string]string`, the type of `jsonapi.Response.Headers`. -/
abbrev HeaderMap := List (String × String)

/-- Map assignment `m[k] = v`. -/
def HeaderMap.set : HeaderMap → String → String → HeaderMap
  | [], k, v => [(k, v)]
  | (k0, v0) :: rest, k, v =>
    if k0 = k then (k, v) :: rest else (k0, v0) :: HeaderMap.set rest k v

/-- Map lookup `m[k]`, with `none` for an absent key. -/
def HeaderMap.get : HeaderMap → String → Option String
  | [], _ => none
  | (k0, v0) :: rest, k => if k0 = k then some v0 else HeaderMap.get rest k

/-- Library type `jsonapi.Response`: status code, single-valued headers and an optional
document (a nil `Body` pointer is `none`). -/
structure Response (Document : Type) where
  Code : Int
  Headers : HeaderMap
  Body : Option Document

/-- Library function `jsonapi.NewResponse(status)`: a response with the given status, an
empty header map and no body. -/
def NewResponse {Document : Type} (status : Int) : Response Document :=
  { Code := status, Headers := [], Body := none }

/-- What `ServeJSONAPI` hands back: either the value of the library call
`response.InternalError(cause)`, kept symbolic, or the response it assembled itself
from `jsonapi.NewResponse`. -/
inductive Reply (Document : Type) where
  | InternalError (cause : GoError)
  | translated (r : Response Document)

/-- Result of running the handler body: a returned value or a panic. -/
inductive Outcome (Document : Type) where
  | returned (reply : Reply Document)
  | panicked (p : Panic)

/-! ## the handler -/

/-- Library interface `jsonapi.Doer`: a transport client with state `σ`.  A call yields the
response or the error, the state in which it leaves the body reader of the request, and
the next state of the client. -/
structure Doer (σ : Type) where
  Do : Request → σ → Except GoError HttpResponse × BodyReader × σ

/-- Standard-library functions the handler calls. -/
structure Lib (Document : Type) where
  /-- Go `url.Parse`. -/
  Parse : String → Except GoError URL
  /-- Go `json.Unmarshal` into a fresh `jsonapi.Document`. -/
  Unmarshal : Bytes → Except GoError Document

/-- The struct `ReverseProxyHandler`. -/
structure ReverseProxyHandler (σ : Type) where
  URLResolver : RequestContext → String → String
  BaseURL : String
  Client : Doer σ

/-- The method `ResolveURL` promoted from the embedded `jsonapi.URLResolver`. -/
def ReverseProxyHandler.ResolveURL {σ : Type} (p : ReverseProxyHandler σ)
    (ctx : RequestContext) (baseURL : String) : String :=
  p.URLResolver ctx baseURL

/-- The constructor `NewReverseProxyHandler(baseURL, options...)`; `DefaultClient` stands
for `http.DefaultClient`.  An option mutates the handler through its pointer, i.e. it
is a function from handlers to handlers. -/
def NewReverseProxyHandler {σ : Type} (DefaultClient : Doer σ) (baseURL : String)
    (options : List (ReverseProxyHandler σ → ReverseProxyHandler σ)) :
    ReverseProxyHandler σ :=
  let handler : ReverseProxyHandler σ :=
    { URLResolver := DefaultURLResolver, BaseURL := baseURL, Client := DefaultClient }
  options.foldl (fun handler option => option handler) handler

/-- The loop `for key, value := range res.Header { jsonapiResponse.Headers[key] = value[0] }`. -/
def copyHeaders : Header → HeaderMap → Except Panic HeaderMap
  | [], headers => .ok headers
  | (key, value) :: rest, headers =>
    match index value 0 with
    | .error p => .error p
    | .ok v => copyHeaders rest (headers.set key v)

/-- Everything observable about one invocation of `ServeJSONAPI`. -/
structure Run (σ Document : Type) where
  /-- The value returned, or the panic raised. -/
  outcome : Outcome Document
  /-- The inbound request `r` after the invocation, its body reader in the state the
  transport client left it in. -/
  inbound : Request
  /-- The requests handed to `Client.Do`, in order. -/
  calls : List Request
  /-- The byte slices handed to `json.Unmarshal`, in order. -/
  decodes : List Bytes
  /-- The state of the transport client after the invocation. -/
  client : σ

/-- The method `ServeJSONAPI`. -/
def ServeJSONAPI {σ Document : Type} (lib : Lib Document) (p : ReverseProxyHandler σ)
    (r : Request) (s : σ) : Run σ Document :=
  match GetContext r.ctx with
  | none => ⟨.panicked .nilDereference, r, [], [], s⟩
  | some ctx =>
    match lib.Parse (p.ResolveURL ctx p.BaseURL) with
    | .error err => ⟨.returned (.InternalError err), r, [], [], s⟩
    | .ok serverURL =>
      let request : Request := { r.Clone Context.Background with URL := serverURL }
      match p.Client.Do request s with
      | (.error err, body, s1) =>
        ⟨.returned (.InternalError err), r.withBody body, [request], [], s1⟩
      | (.ok res, body, s1) =>
        match ioReadAll res.Body with
        | .error err => ⟨.returned (.InternalError err), r.withBody body, [request], [], s1⟩
        | .ok data =>
          let jsonapiResponse : Response Document := NewResponse res.StatusCode
          match copyHeaders res.Header jsonapiResponse.Headers with
          | .error pn => ⟨.panicked pn, r.withBody body, [request], [], s1⟩
          | .ok headers =>
            let jsonapiResponse := { jsonapiResponse with Headers := headers }
            if data.length > 0 then
              match lib.Unmarshal data with
              | .error err =>
                ⟨.returned (.InternalError err), r.withBody body, [request], [data], s1⟩
              | .ok doc =>
                ⟨.returned (.translated { jsonapiResponse with Body := some doc }),
                  r.withBody body, [request], [data], s1⟩
            else
              ⟨.returned (.translated jsonapiResponse), r.withBody body, [request], [], s1⟩

/-- The request `ServeJSONAPI` builds for the transport client: the clone of `r` under a
background context, with its URL replaced by `serverURL`. -/
def outbound (r : Request) (serverURL : URL) : Request :=
  { r.Clone Context.Background with URL := serverURL }

/-- The inbound request `r` with its context cancelled or not. -/
def withCancelled (r : Request) (c : Bool) : Request :=
  { r with ctx := { r.ctx with cancelled := c } }

/-- The construction option `func(h *ReverseProxyHandler) { h.URLResolver = f }`, which
replaces the resolution strategy by `f`. -/
def setURLResolver {σ : Type} (f : RequestContext → String → String) :
    ReverseProxyHandler σ → ReverseProxyHandler σ :=
  fun handler => { handler with URLResolver := f }

/-! ## a model of url.Parse

The general results below hold for every `Lib`.  Concrete runs need a concrete
`url.Parse`; `urlParse` follows the source of `net/url` (Go 1.21) function by function:
`Parse`, `parse`, `getScheme`, `parseAuthority`, `parseHost`, `validOptionalPort`,
`validUserinfo`, `unescape`, `shouldEscape` for hosts, and the messages of `url.Error`,
`EscapeError` and `InvalidHostError`.  The user information is checked but not kept, as
`URL` has no field for it.
-/

/-- Go `stringContainsCTLByte`: some byte is below 0x20 or equal to 0x7f. -/
def stringContainsCTLByte (s : List Char) : Bool :=
  s.any (fun c => decide (c.toNat < 32) || decide (c.toNat = 127))

/-- Go `strings.Cut(s, sep)` for a one-character separator: the text before and after
the first occurrence of `sep`, and the whole of `s` when there is none. -/
def cut (sep : Char) : List Char → List Char × List Char
  | [] => ([], [])
  | c :: cs => if c = sep then ([], cs) else ((cut sep cs).1.cons c, (cut sep cs).2)

/-- The text before and after the last occurrence of `sep` in `s` (Go
`strings.LastIndex`), for an `s` that contains `sep`. -/
def cutLast (sep : Char) (s : List Char) : List Char × List Char :=
  ((cut sep s.reverse).2.reverse, (cut sep s.reverse).1.reverse)

/-- Whether `s` begins with `p` (Go `strings.HasPrefix`). -/
def startsWith (p s : List Char) : Bool := p.isPrefixOf s

/-- The double quote. -/
def dquote : Char := Char.ofNat 34

/-- The backslash. -/
def backslash : Char := Char.ofNat 92

/-- The apostrophe. -/
def apostrophe : Char := Char.ofNat 39

/-- Lower-case hexadecimal digit of a number below 16. -/
def hexDigit (n : Nat) : Char :=
  if n < 10 then Char.ofNat (48 + n) else Char.ofNat (87 + n)

/-- Go `strconv.Quote` on one byte of ASCII; a byte above 0x7f is kept as it is, which is
what `strconv.Quote` does with the bytes of a printable character. -/
def quoteByte (c : Char) : List Char :=
  if c = dquote then [backslash, dquote]
  else if c = backslash then [backslash, backslash]
  else if c.toNat = 7 then [backslash, 'a']
  else if c.toNat = 8 then [backslash, 'b']
  else if c.toNat = 12 then [backslash, 'f']
  else if c.toNat = 10 then [backslash, 'n']
  else if c.toNat = 13 then [backslash, 'r']
  else if c.toNat = 9 then [backslash, 't']
  else if c.toNat = 11 then [backslash, 'v']
  else if c.toNat < 32 ∨ c.toNat = 127 then
    [backslash, 'x', hexDigit (c.toNat / 16), hexDigit (c.toNat % 16)]
  else [c]

/-- Go `strconv.Quote`, the `%q` verb. -/
def quote (s : List Char) : String :=
  String.mk (dquote :: (s.flatMap quoteByte ++ [dquote]))

/-- Go `ishex`. -/
def ishex (c : Char) : Bool :=
  (decide ('0' ≤ c) && decide (c ≤ '9')) || (decide ('a' ≤ c) && decide (c ≤ 'f')) ||
    (decide ('A' ≤ c) && decide (c ≤ 'F'))

/-- Go `unhex`. -/
def unhex (c : Char) : Nat :=
  if '0' ≤ c ∧ c ≤ '9' then c.toNat - 48
  else if 'a' ≤ c ∧ c ≤ 'f' then c.toNat - 97 + 10
  else if 'A' ≤ c ∧ c ≤ 'F' then c.toNat - 65 + 10
  else 0

/-- The component a string is escaped for (Go `encoding`). -/
inductive encoding where
  | encodePath
  | encodeHost
  | encodeZone
  | encodeUserPassword
  | encodeFragment
  deriving DecidableEq, Repr

/-- Go `shouldEscape(c, encodeHost)`. -/
def shouldEscapeHost (c : Char) : Bool :=
  if c.isAlphanum then false
  else if [ '!', '$', '&', apostrophe, '(', ')', '*', '+', ',', ';', '=', ':', '[', ']', '<',
      '>', dquote].contains c then false
  else if ['-', '_', '.', '~'].contains c then false
  else true

/-- Go `EscapeError.Error`. -/
def escapeError (s : List Char) : GoError := "invalid URL escape " ++ quote s

/-- Go `InvalidHostError.Error`. -/
def invalidHostError (s : List Char) : GoError :=
  "invalid character " ++ quote s ++ " in host name"

/-- The first loop of Go `unescape`: every percent sign starts a well-formed escape that
the mode admits, and a host holds no byte that must be escaped. -/
def unescapeCheck (mode : encoding) : List Char → Except GoError Unit
  | [] => .ok ()
  | c :: rest =>
    if c = '%' then
      match rest with
      | h1 :: h2 :: rest2 =>
        if !(ishex h1 && ishex h2) then .error (escapeError [c, h1, h2])
        else if mode = .encodeHost ∧ unhex h1 < 8 ∧ [h1, h2] ≠ ['2', '5'] then
          .error (escapeError [c, h1, h2])
        else if mode = .encodeZone ∧ [h1, h2] ≠ ['2', '5'] ∧
            Char.ofNat (unhex h1 * 16 + unhex h2) ≠ ' ' ∧
            shouldEscapeHost (Char.ofNat (unhex h1 * 16 + unhex h2)) = true then
          .error (escapeError [c, h1, h2])
        else unescapeCheck mode rest2
      | _ => .error (escapeError (c :: rest))
    else if (mode = .encodeHost ∨ mode = .encodeZone) ∧ c.toNat < 128 ∧
        shouldEscapeHost c = true then
      .error (invalidHostError [c])
    else unescapeCheck mode rest

/-- The second loop of Go `unescape`: every escape is replaced by the byte it names. -/
def unescapeDecode : List Char → List Char
  | [] => []
  | c :: rest =>
    if c = '%' then
      match rest with
      | h1 :: h2 :: rest2 => Char.ofNat (unhex h1 * 16 + unhex h2) :: unescapeDecode rest2
      | _ => c :: rest
    else c :: unescapeDecode rest

/-- Go `unescape(s, mode)` for the modes of `encoding`. -/
def unescape (mode : encoding) (s : List Char) : Except GoError (List Char) :=
  match unescapeCheck mode s with
  | .error err => .error err
  | .ok _ => .ok (unescapeDecode s)

/-- The loop of Go `getScheme`, at index `i` with `seen` the characters before `i`. -/
def getSchemeLoop (rawURL : List Char) : Nat → List Char → List Char →
    Except GoError (List Char × List Char)
  | _, _, [] => .ok ([], rawURL)
  | i, seen, c :: cs =>
    if c.isAlpha then getSchemeLoop rawURL (i + 1) (seen ++ [c]) cs
    else if c.isDigit || c = '+' || c = '-' || c = '.' then
      if i = 0 then .ok ([], rawURL) else getSchemeLoop rawURL (i + 1) (seen ++ [c]) cs
    else if c = ':' then
      if i = 0 then .error "missing protocol scheme" else .ok (seen, cs)
    else .ok ([], rawURL)

/-- Go `getScheme`: split off a leading `scheme:`. -/
def getScheme (rawURL : List Char) : Except GoError (List Char × List Char) :=
  getSchemeLoop rawURL 0 [] rawURL

/-- Go `validOptionalPort`: empty, or a colon followed by decimal digits only. -/
def validOptionalPort : List Char → Bool
  | [] => true
  | c :: digits => c = ':' && digits.all Char.isDigit

/-- The first occurrence of `%25` in `s`: the text before it and the text from it on. -/
def cutZone : List Char → Option (List Char × List Char)
  | [] => none
  | c :: cs =>
    if startsWith ['%', '2', '5'] (c :: cs) then some ([], c :: cs)
    else (cutZone cs).map (fun bz => (c :: bz.1, bz.2))

/-- Go `parseHost`. -/
def parseHost (host : List Char) : Except GoError (List Char) :=
  if startsWith ['['] host then
    if !host.contains ']' then .error "missing ']' in host"
    else if !validOptionalPort (cutLast ']' host).2 then
      .error ("invalid port " ++ quote (cutLast ']' host).2 ++ " after host")
    else
      match cutZone (cutLast ']' host).1 with
      | some (address, zone) =>
        match unescape .encodeHost address with
        | .error err => .error err
        | .ok host1 =>
          match unescape .encodeZone zone with
          | .error err => .error err
          | .ok host2 =>
            match unescape .encodeHost (']' :: (cutLast ']' host).2) with
            | .error err => .error err
            | .ok host3 => .ok (host1 ++ host2 ++ host3)
      | none => unescape .encodeHost host
  else if host.contains ':' ∧ validOptionalPort (':' :: (cutLast ':' host).2) = false then
    .error ("invalid port " ++ quote (':' :: (cutLast ':' host).2) ++ " after host")
  else unescape .encodeHost host

/-- Go `validUserinfo`. -/
def validUserinfo (s : List Char) : Bool :=
  s.all (fun r => r.isAlphanum ||
    ['-', '.', '_', ':', '~', '!', '$', '&', apostrophe, '(', ')', '*', '+', ',', ';', '=', '%',
      '@'].contains r)

/-- Go `parseAuthority`, for the host: the user information is checked and dropped. -/
def parseAuthority (authority : List Char) : Except GoError (List Char) :=
  if !authority.contains '@' then parseHost authority
  else
    match parseHost (cutLast '@' authority).2 with
    | .error err => .error err
    | .ok host =>
      if !validUserinfo (cutLast '@' authority).1 then .error "net/url: invalid userinfo"
      else
        match unescape .encodeUserPassword (cut ':' (cutLast '@' authority).1).1 with
        | .error err => .error err
        | .ok _ =>
          match unescape .encodeUserPassword (cut ':' (cutLast '@' authority).1).2 with
          | .error err => .error err
          | .ok _ => .ok host

/-- Go `parse(rawURL, false)`, the body of `url.Parse` after the fragment is cut off:
control bytes are rejected, `getScheme` splits off the scheme, the query is cut off
(a lone trailing question mark like an empty query), a rootless rest is opaque under a
scheme and must not have a colon in its first segment otherwise, a rest starting with
two slashes carries the authority, and the path is unescaped. -/
def parse (rawURL : List Char) : Except GoError URL :=
  if stringContainsCTLByte rawURL then .error "net/url: invalid control character in URL"
  else if rawURL = ['*'] then .ok ⟨"", "", "", "*", "", ""⟩
  else
    match getScheme rawURL with
    | .error err => .error err
    | .ok (scheme, rest0) =>
      let scheme := scheme.map Char.toLower
      let rest := (cut '?' rest0).1
      let query := (cut '?' rest0).2
      if !startsWith ['/'] rest && scheme != [] then
        .ok ⟨String.mk scheme, String.mk rest, "", "", String.mk query, ""⟩
      else if !startsWith ['/'] rest && (cut '/' rest).1.contains ':' then
        .error "first path segment in URL cannot contain colon"
      else if (scheme != [] || !startsWith ['/', '/', '/'] rest) && startsWith ['/', '/'] rest then
        let authority := (cut '/' (rest.drop 2)).1
        let path := if (rest.drop 2).contains '/' then '/' :: (cut '/' (rest.drop 2)).2 else []
        match parseAuthority authority with
        | .error err => .error err
        | .ok host =>
          match unescape .encodePath path with
          | .error err => .error err
          | .ok path => .ok ⟨String.mk scheme, "", String.mk host, String.mk path,
              String.mk query, ""⟩
      else
        match unescape .encodePath rest with
        | .error err => .error err
        | .ok path => .ok ⟨String.mk scheme, "", "", String.mk path, String.mk query, ""⟩

/-- Go `(*url.Error).Error` for the operation `parse`. -/
def parseError (url : List Char) (err : GoError) : GoError :=
  "parse " ++ quote url ++ ": " ++ err

/-- Go `url.Parse`, following `net/url`: the fragment is cut off and unescaped, the rest
goes through `parse`, and an error is reported as a `url.Error` of the operation
`parse`. -/
def urlParse (rawURL : String) : Except GoError URL :=
  match parse (cut '#' rawURL.toList).1 with
  | .error err => .error (parseError (cut '#' rawURL.toList).1 err)
  | .ok url =>
    if (cut '#' rawURL.toList).2 = [] then .ok url
    else
      match unescape .encodeFragment (cut '#' rawURL.toList).2 with
      | .error err => .error (parseError rawURL.toList err)
      | .ok frag => .ok { url with Fragment := String.mk frag }

/-- A string is a valid absolute URL when `url.Parse` accepts it and the result has a
scheme. -/
def isValidAbsoluteURL (parse : String → Except GoError URL) (s : String) : Bool :=
  match parse s with
  | .ok u => u.IsAbs
  | .error _ => false

/-! ## sample collaborators for concrete runs -/

/-- A document type for concrete runs: the empty JSON object is the only document. -/
inductive SampleDocument where
  | empty
  deriving DecidableEq, Repr

/-- A decoder for concrete runs.  It agrees with `json.Unmarshal` on the two inputs used
below: the two bytes of the empty JSON object decode, and the single byte of an opening
brace is rejected; every other input is rejected as well. -/
def sampleUnmarshal (data : Bytes) : Except GoError SampleDocument :=
  if data = [0x7b, 0x7d] then .ok .empty else .error "unexpected end of JSON input"

/-- The library used in concrete runs. -/
def sampleLib : Lib SampleDocument := ⟨urlParse, sampleUnmarshal⟩

/-- A transport client for concrete runs: it answers every request with `answer`, leaves
the body of the request unread and counts the calls it receives. -/
def sampleClient (answer : Except GoError HttpResponse) : Doer Nat :=
  ⟨fun request n => (answer, request.Body, n + 1)⟩

/-- A transport client for concrete runs that, like `http.Transport`, reads the body of
the request to the end and closes it before it answers with `answer`. -/
def drainingClient (answer : Except GoError HttpResponse) : Doer Nat :=
  ⟨fun _ n => (answer, ⟨[], true⟩, n + 1)⟩

/-- An inbound request for concrete runs: `GET /widgets/42` on the proxy, classified as a
fetch of widget 42, with one header and an inbound context that may be cancelled. -/
def sampleRequest (cancelled : Bool) : Request :=
  { Method := "GET"
    URL := ⟨"", "", "", "/widgets/42", "", ""⟩
    Header := [("Accept", ["application/vnd.api+json"])]
    Body := ⟨[], false⟩
    ctx := ⟨some ⟨"widgets", some "42", some "owner", .fetch⟩, cancelled⟩ }

/-! ## header maps -/

theorem HeaderMap.get_set_self (m : HeaderMap) (k v : String) :
    (m.set k v).get k = some v := by
  induction m with
  | nil => simp [HeaderMap.set, HeaderMap.get]
  | cons e rest ih =>
    obtain ⟨k0, v0⟩ := e
    by_cases h : k0 = k
    · simp [HeaderMap.set, HeaderMap.get, h]
    · simp [HeaderMap.set, HeaderMap.get, h, ih]

theorem HeaderMap.get_set_of_ne (m : HeaderMap) (k v k1 : String) (hne : k ≠ k1) :
    (m.set k v).get k1 = m.get k1 := by
  induction m with
  | nil => simp [HeaderMap.set, HeaderMap.get, hne]
  | cons e rest ih =>
    obtain ⟨k0, v0⟩ := e
    by_cases h : k0 = k
    · subst h
      simp [HeaderMap.set, HeaderMap.get, hne]
    · by_cases h1 : k0 = k1
      · subst h1
        simp [HeaderMap.set, HeaderMap.get, h]
      · simp [HeaderMap.set, HeaderMap.get, h, h1, ih]

/-! ## the header-copy loop -/

/-- The loop completes when every header name carries at least one value. -/
theorem copyHeaders_ok (hdr : Header) (m0 : HeaderMap) (hne : ∀ kv ∈ hdr, kv.2 ≠ []) :
    ∃ m, copyHeaders hdr m0 = .ok m := by
  induction hdr generalizing m0 with
  | nil => exact ⟨m0, rfl⟩
  | cons e rest ih =>
    obtain ⟨k, vs⟩ := e
    cases vs with
    | nil => exact absurd rfl (hne (k, []) (List.mem_cons_self _ _))
    | cons v vs =>
      have h := ih (m0.set k v) (fun kv hkv => hne kv (List.mem_cons_of_mem _ hkv))
      simpa [copyHeaders, index] using h

/-- The loop panics with an index out of range when some header name carries no value. -/
theorem copyHeaders_panics (hdr : Header) (m0 : HeaderMap) (k : String)
    (hk : (k, []) ∈ hdr) : copyHeaders hdr m0 = .error .indexOutOfRange := by
  induction hdr generalizing m0 with
  | nil => cases hk
  | cons e rest ih =>
    obtain ⟨k0, vs⟩ := e
    cases vs with
    | nil => simp [copyHeaders, index]
    | cons v vs =>
      have hk1 : (k, []) ∈ rest := by
        rcases List.mem_cons.mp hk with h | h
        · cases h
        · exact h
      simpa [copyHeaders, index] using ih (m0.set k0 v) hk1

/-- A completed loop leaves the names that do not occur in the backend header map alone. -/
theorem copyHeaders_get_of_not_mem (hdr : Header) (m0 m : HeaderMap) (k : String)
    (hcopy : copyHeaders hdr m0 = .ok m) (hk : k ∉ hdr.map Prod.fst) :
    m.get k = m0.get k := by
  induction hdr generalizing m0 with
  | nil =>
    simp only [copyHeaders, Except.ok.injEq] at hcopy
    rw [hcopy]
  | cons e rest ih =>
    obtain ⟨k0, vs⟩ := e
    simp only [List.map_cons, List.mem_cons, not_or] at hk
    cases vs with
    | nil => simp [copyHeaders, index] at hcopy
    | cons v vs =>
      simp only [copyHeaders, index] at hcopy
      rw [ih (m0.set k0 v) hcopy hk.2]
      exact HeaderMap.get_set_of_ne m0 k0 v k (fun h => hk.1 h.symm)

/-- A completed loop maps every name that carries a value to the first value of its list. -/
theorem copyHeaders_get_first (hdr : Header) (m0 m : HeaderMap) (k v : String)
    (vs : List String) (hnodup : (hdr.map Prod.fst).Nodup)
    (hcopy : copyHeaders hdr m0 = .ok m) (hk : (k, v :: vs) ∈ hdr) :
    m.get k = some v := by
  induction hdr generalizing m0 with
  | nil => cases hk
  | cons e rest ih =>
    obtain ⟨k0, vs0⟩ := e
    simp only [List.map_cons, List.nodup_cons] at hnodup
    cases vs0 with
    | nil => simp [copyHeaders, index] at hcopy
    | cons v0 vs0 =>
      simp only [copyHeaders, index] at hcopy
      rcases List.mem_cons.mp hk with h | h
      · cases h
        rw [copyHeaders_get_of_not_mem rest _ m k hcopy hnodup.1]
        exact HeaderMap.get_set_self m0 k v
      · exact ih (m0.set k0 v0) hnodup.2 hcopy h

/-! ## the pipeline, step by step -/

/-- A resolved string that `url.Parse` rejects ends the invocation before the transport
client is used. -/
theorem ServeJSONAPI_parse_error {σ Document : Type} (lib : Lib Document)
    (p : ReverseProxyHandler σ) (r : Request) (s : σ) (ctx : RequestContext) (e : GoError)
    (hctx : GetContext r.ctx = some ctx)
    (hparse : lib.Parse (p.ResolveURL ctx p.BaseURL) = .error e) :
    ServeJSONAPI lib p r s = ⟨.returned (.InternalError e), r, [], [], s⟩ := by
  simp only [ServeJSONAPI, hctx, hparse]

/-- A transport error ends the invocation after the single call of `Do`. -/
theorem ServeJSONAPI_do_error {σ Document : Type} (lib : Lib Document)
    (p : ReverseProxyHandler σ) (r : Request) (s s1 : σ) (b1 : BodyReader) (ctx : RequestContext) (u : URL)
    (e : GoError) (hctx : GetContext r.ctx = some ctx)
    (hparse : lib.Parse (p.ResolveURL ctx p.BaseURL) = .ok u)
    (hdo : p.Client.Do (outbound r u) s = (.error e, b1, s1)) :
    ServeJSONAPI lib p r s = ⟨.returned (.InternalError e), r.withBody b1, [outbound r u], [], s1⟩ := by
  simp only [outbound] at hdo
  simp only [ServeJSONAPI, hctx, hparse, hdo, outbound]

/-- A failing body read ends the invocation with an internal error. -/
theorem ServeJSONAPI_read_error {σ Document : Type} (lib : Lib Document)
    (p : ReverseProxyHandler σ) (r : Request) (s s1 : σ) (b1 : BodyReader) (ctx : RequestContext) (u : URL)
    (res : HttpResponse) (e : GoError) (hctx : GetContext r.ctx = some ctx)
    (hparse : lib.Parse (p.ResolveURL ctx p.BaseURL) = .ok u)
    (hdo : p.Client.Do (outbound r u) s = (.ok res, b1, s1))
    (hread : res.Body = .error e) :
    ServeJSONAPI lib p r s = ⟨.returned (.InternalError e), r.withBody b1, [outbound r u], [], s1⟩ := by
  simp only [outbound] at hdo
  simp only [ServeJSONAPI, hctx, hparse, hdo, hread, ioReadAll, outbound]

/-- A header name without a value makes the header-copy loop panic, whatever the status
and the body of the backend response are. -/
theorem ServeJSONAPI_copy_panics {σ Document : Type} (lib : Lib Document)
    (p : ReverseProxyHandler σ) (r : Request) (s s1 : σ) (b1 : BodyReader) (ctx : RequestContext) (u : URL)
    (res : HttpResponse) (data : Bytes) (k : String) (hctx : GetContext r.ctx = some ctx)
    (hparse : lib.Parse (p.ResolveURL ctx p.BaseURL) = .ok u)
    (hdo : p.Client.Do (outbound r u) s = (.ok res, b1, s1))
    (hread : res.Body = .ok data) (hk : (k, []) ∈ res.Header) :
    ServeJSONAPI lib p r s = ⟨.panicked .indexOutOfRange, r.withBody b1, [outbound r u], [], s1⟩ := by
  simp only [outbound] at hdo
  simp only [ServeJSONAPI, hctx, hparse, hdo, hread, ioReadAll, outbound, NewResponse,
    copyHeaders_panics res.Header [] k hk]

/-- An empty backend body, once the headers are copied, yields the backend status with
the copied headers and no body; the decoder is not called. -/
theorem ServeJSONAPI_empty_body {σ Document : Type} (lib : Lib Document)
    (p : ReverseProxyHandler σ) (r : Request) (s s1 : σ) (b1 : BodyReader) (ctx : RequestContext) (u : URL)
    (res : HttpResponse) (headers : HeaderMap) (hctx : GetContext r.ctx = some ctx)
    (hparse : lib.Parse (p.ResolveURL ctx p.BaseURL) = .ok u)
    (hdo : p.Client.Do (outbound r u) s = (.ok res, b1, s1))
    (hread : res.Body = .ok []) (hcopy : copyHeaders res.Header [] = .ok headers) :
    ServeJSONAPI lib p r s =
      ⟨.returned (.translated ⟨res.StatusCode, headers, none⟩), r.withBody b1, [outbound r u], [], s1⟩ := by
  simp only [outbound] at hdo
  simp [ServeJSONAPI, hctx, hparse, hdo, hread, ioReadAll, outbound, NewResponse, hcopy]

/-- A non-empty backend body that the decoder rejects, once the headers are copied,
yields the internal error of the decoder. -/
theorem ServeJSONAPI_decode_error {σ Document : Type} (lib : Lib Document)
    (p : ReverseProxyHandler σ) (r : Request) (s s1 : σ) (b1 : BodyReader) (ctx : RequestContext) (u : URL)
    (res : HttpResponse) (data : Bytes) (headers : HeaderMap) (e : GoError)
    (hctx : GetContext r.ctx = some ctx)
    (hparse : lib.Parse (p.ResolveURL ctx p.BaseURL) = .ok u)
    (hdo : p.Client.Do (outbound r u) s = (.ok res, b1, s1))
    (hread : res.Body = .ok data) (hdata : data ≠ [])
    (hcopy : copyHeaders res.Header [] = .ok headers)
    (hdec : lib.Unmarshal data = .error e) :
    ServeJSONAPI lib p r s =
      ⟨.returned (.InternalError e), r.withBody b1, [outbound r u], [data], s1⟩ := by
  have hlen : data.length > 0 := List.length_pos.mpr hdata
  simp only [outbound] at hdo
  simp [ServeJSONAPI, hctx, hparse, hdo, hread, ioReadAll, outbound, NewResponse, hcopy,
    hlen, hdec]

/-- A non-empty backend body that decodes, once the headers are copied, yields the
backend status with the copied headers and the decoded document. -/
theorem ServeJSONAPI_decoded {σ Document : Type} (lib : Lib Document)
    (p : ReverseProxyHandler σ) (r : Request) (s s1 : σ) (b1 : BodyReader) (ctx : RequestContext) (u : URL)
    (res : HttpResponse) (data : Bytes) (headers : HeaderMap) (d : Document)
    (hctx : GetContext r.ctx = some ctx)
    (hparse : lib.Parse (p.ResolveURL ctx p.BaseURL) = .ok u)
    (hdo : p.Client.Do (outbound r u) s = (.ok res, b1, s1))
    (hread : res.Body = .ok data) (hdata : data ≠ [])
    (hcopy : copyHeaders res.Header [] = .ok headers)
    (hdec : lib.Unmarshal data = .ok d) :
    ServeJSONAPI lib p r s =
      ⟨.returned (.translated ⟨res.StatusCode, headers, some d⟩), r.withBody b1, [outbound r u], [data],
        s1⟩ := by
  have hlen : data.length > 0 := List.length_pos.mpr hdata
  simp only [outbound] at hdo
  simp [ServeJSONAPI, hctx, hparse, hdo, hread, ioReadAll, outbound, NewResponse, hcopy,
    hlen, hdec]

/-- The transport client is used at most once per invocation, and nothing of the inbound
request but the state of its body reader is ever modified. -/
theorem ServeJSONAPI_calls_le_one {σ Document : Type} (lib : Lib Document)
    (p : ReverseProxyHandler σ) (r : Request) (s : σ) :
    (ServeJSONAPI lib p r s).calls.length ≤ 1 ∧
    (ServeJSONAPI lib p r s).inbound = r.withBody (ServeJSONAPI lib p r s).inbound.Body := by
  unfold ServeJSONAPI
  repeat (first | split | simp [Request.withBody])

/-- Cancelling the inbound context changes nothing but the context of the inbound request. -/
theorem ServeJSONAPI_withCancelled {σ Document : Type} (lib : Lib Document)
    (p : ReverseProxyHandler σ) (r : Request) (s : σ) (c : Bool) :
    (ServeJSONAPI lib p (withCancelled r c) s).outcome = (ServeJSONAPI lib p r s).outcome ∧
    (ServeJSONAPI lib p (withCancelled r c) s).calls = (ServeJSONAPI lib p r s).calls ∧
    (ServeJSONAPI lib p (withCancelled r c) s).decodes = (ServeJSONAPI lib p r s).decodes ∧
    (ServeJSONAPI lib p (withCancelled r c) s).client = (ServeJSONAPI lib p r s).client ∧
    (ServeJSONAPI lib p (withCancelled r c) s).inbound =
      withCancelled (ServeJSONAPI lib p r s).inbound c := by
  unfold ServeJSONAPI
  simp only [withCancelled, GetContext, Request.Clone, Request.withBody]
  repeat (first | split | simp)

/-- Once the resolved URL parses, the run is determined by the one application of `Do` to
the outbound request: the call log holds that request, and the client state and the
state of the inbound body reader are the ones that application returns. -/
theorem ServeJSONAPI_applies_Do {σ Document : Type} (lib : Lib Document)
    (p : ReverseProxyHandler σ) (r : Request) (s : σ) (ctx : RequestContext) (u : URL)
    (hctx : GetContext r.ctx = some ctx)
    (hparse : lib.Parse (p.ResolveURL ctx p.BaseURL) = .ok u) :
    (ServeJSONAPI lib p r s).calls = [outbound r u] ∧
    (ServeJSONAPI lib p r s).inbound = r.withBody (p.Client.Do (outbound r u) s).2.1 ∧
    (ServeJSONAPI lib p r s).client = (p.Client.Do (outbound r u) s).2.2 := by
  unfold ServeJSONAPI
  simp only [hctx, hparse, outbound]
  repeat (first | split | simp_all)

/-- With a value under every header name, an empty backend body yields the backend status,
some copied headers and no body, and the decoder is not called. -/
theorem ServeJSONAPI_empty_body_of_values {σ Document : Type} (lib : Lib Document)
    (p : ReverseProxyHandler σ) (r : Request) (s s1 : σ) (b1 : BodyReader) (ctx : RequestContext) (u : URL)
    (res : HttpResponse) (hctx : GetContext r.ctx = some ctx)
    (hparse : lib.Parse (p.ResolveURL ctx p.BaseURL) = .ok u)
    (hdo : p.Client.Do (outbound r u) s = (.ok res, b1, s1))
    (hread : res.Body = .ok []) (hne : ∀ kv ∈ res.Header, kv.2 ≠ []) :
    ∃ headers, ServeJSONAPI lib p r s =
      ⟨.returned (.translated ⟨res.StatusCode, headers, none⟩), r.withBody b1, [outbound r u], [], s1⟩ := by
  obtain ⟨m, hcopy⟩ := copyHeaders_ok res.Header [] hne
  exact ⟨m, ServeJSONAPI_empty_body lib p r s s1 b1 ctx u res m hctx hparse hdo hread hcopy⟩

/-- With a value under every header name, a non-empty backend body that the decoder
rejects with `e` yields `response.InternalError(e)`, whatever the backend status and
headers are. -/
theorem ServeJSONAPI_decode_error_of_values {σ Document : Type} (lib : Lib Document)
    (p : ReverseProxyHandler σ) (r : Request) (s s1 : σ) (b1 : BodyReader) (ctx : RequestContext) (u : URL)
    (res : HttpResponse) (data : Bytes) (e : GoError)
    (hctx : GetContext r.ctx = some ctx)
    (hparse : lib.Parse (p.ResolveURL ctx p.BaseURL) = .ok u)
    (hdo : p.Client.Do (outbound r u) s = (.ok res, b1, s1))
    (hread : res.Body = .ok data) (hdata : data ≠ [])
    (hne : ∀ kv ∈ res.Header, kv.2 ≠ []) (hdec : lib.Unmarshal data = .error e) :
    ServeJSONAPI lib p r s =
      ⟨.returned (.InternalError e), r.withBody b1, [outbound r u], [data], s1⟩ := by
  obtain ⟨m, hcopy⟩ := copyHeaders_ok res.Header [] hne
  exact ServeJSONAPI_decode_error lib p r s s1 b1 ctx u res data m e hctx hparse hdo hread hdata
    hcopy hdec

/-- With a value under every header name, a non-empty backend body that decodes to `d`
yields the backend status, 4xx and 5xx included, with `d` as the body. -/
theorem ServeJSONAPI_decoded_of_values {σ Document : Type} (lib : Lib Document)
    (p : ReverseProxyHandler σ) (r : Request) (s s1 : σ) (b1 : BodyReader) (ctx : RequestContext) (u : URL)
    (res : HttpResponse) (data : Bytes) (d : Document)
    (hctx : GetContext r.ctx = some ctx)
    (hparse : lib.Parse (p.ResolveURL ctx p.BaseURL) = .ok u)
    (hdo : p.Client.Do (outbound r u) s = (.ok res, b1, s1))
    (hread : res.Body = .ok data) (hdata : data ≠ [])
    (hne : ∀ kv ∈ res.Header, kv.2 ≠ []) (hdec : lib.Unmarshal data = .ok d) :
    ∃ headers, ServeJSONAPI lib p r s =
      ⟨.returned (.translated ⟨res.StatusCode, headers, some d⟩), r.withBody b1, [outbound r u], [data],
        s1⟩ := by
  obtain ⟨m, hcopy⟩ := copyHeaders_ok res.Header [] hne
  exact ⟨m, ServeJSONAPI_decoded lib p r s s1 b1 ctx u res data m d hctx hparse hdo hread hdata
    hcopy hdec⟩

/-! ## the claims -/

/-- C1: the handler built by `NewReverseProxyHandler(baseURL)` with no options resolves an
access context to `base/type` for search and create, to `base/type/id` for fetch, update
and delete, to `base/type/id/relationships/ref` for fetchRef and to `base/type/id/ref`
for fetchRelated, for every resource type, id, relationship name and base URL. -/
theorem NewReverseProxyHandler_default_resolution {σ : Type} (DefaultClient : Doer σ)
    (baseURL typ id ref : String) (oid oref : Option String) :
    (NewReverseProxyHandler DefaultClient baseURL []).BaseURL = baseURL ∧
    (NewReverseProxyHandler DefaultClient baseURL []).ResolveURL
      ⟨typ, oid, oref, .search⟩ baseURL = baseURL ++ "/" ++ typ ∧
    (NewReverseProxyHandler DefaultClient baseURL []).ResolveURL
      ⟨typ, oid, oref, .create⟩ baseURL = baseURL ++ "/" ++ typ ∧
    (NewReverseProxyHandler DefaultClient baseURL []).ResolveURL
      ⟨typ, some id, oref, .fetch⟩ baseURL = baseURL ++ "/" ++ typ ++ "/" ++ id ∧
    (NewReverseProxyHandler DefaultClient baseURL []).ResolveURL
      ⟨typ, some id, oref, .update⟩ baseURL = baseURL ++ "/" ++ typ ++ "/" ++ id ∧
    (NewReverseProxyHandler DefaultClient baseURL []).ResolveURL
      ⟨typ, some id, oref, .delete⟩ baseURL = baseURL ++ "/" ++ typ ++ "/" ++ id ∧
    (NewReverseProxyHandler DefaultClient baseURL []).ResolveURL
      ⟨typ, some id, some ref, .fetchRef⟩ baseURL =
        baseURL ++ "/" ++ typ ++ "/" ++ id ++ "/relationships/" ++ ref ∧
    (NewReverseProxyHandler DefaultClient baseURL []).ResolveURL
      ⟨typ, some id, some ref, .fetchRelated⟩ baseURL =
        baseURL ++ "/" ++ typ ++ "/" ++ id ++ "/" ++ ref :=
  ⟨rfl, rfl, rfl, rfl, rfl, rfl, rfl, rfl⟩

/-- C1 at base `https://api.example.com`, type widgets, id 42 and reference owner. -/
theorem NewReverseProxyHandler_default_resolution_widgets :
    (NewReverseProxyHandler (sampleClient (.error "unused")) "https://api.example.com"
        []).ResolveURL ⟨"widgets", none, none, .search⟩ "https://api.example.com" =
      "https://api.example.com/widgets" ∧
    (NewReverseProxyHandler (sampleClient (.error "unused")) "https://api.example.com"
        []).ResolveURL ⟨"widgets", some "42", none, .fetch⟩ "https://api.example.com" =
      "https://api.example.com/widgets/42" ∧
    (NewReverseProxyHandler (sampleClient (.error "unused")) "https://api.example.com"
        []).ResolveURL ⟨"widgets", some "42", some "owner", .fetchRef⟩
        "https://api.example.com" = "https://api.example.com/widgets/42/relationships/owner" ∧
    (NewReverseProxyHandler (sampleClient (.error "unused")) "https://api.example.com"
        []).ResolveURL ⟨"widgets", some "42", some "owner", .fetchRelated⟩
        "https://api.example.com" = "https://api.example.com/widgets/42/owner" :=
  have h := NewReverseProxyHandler_default_resolution (sampleClient (.error "unused"))
    "https://api.example.com" "widgets" "42" "owner" none none
  ⟨h.2.1, h.2.2.2.1, h.2.2.2.2.2.2.1, h.2.2.2.2.2.2.2⟩

/-- C2: a handler built with an option that sets the resolution strategy to `f` is the
handler whose strategy is `f` (the default table plays no part in it); every request it
hands to the transport client has the URL parsed from `f(ctx, baseURL)`, and when that
string parses the transport client is applied once, to the one request for that URL. -/
theorem NewReverseProxyHandler_resolver_override {σ Document : Type} (lib : Lib Document)
    (DefaultClient : Doer σ) (baseURL : String) (f : RequestContext → String → String)
    (r : Request) (s : σ) (ctx : RequestContext) (hctx : GetContext r.ctx = some ctx) :
    NewReverseProxyHandler DefaultClient baseURL [setURLResolver f] =
      ⟨f, baseURL, DefaultClient⟩ ∧
    (∀ req ∈ (ServeJSONAPI lib
        (NewReverseProxyHandler DefaultClient baseURL [setURLResolver f]) r s).calls,
      lib.Parse (f ctx baseURL) = .ok req.URL) ∧
    (∀ u, lib.Parse (f ctx baseURL) = .ok u →
      (ServeJSONAPI lib
        (NewReverseProxyHandler DefaultClient baseURL [setURLResolver f]) r s).calls =
          [outbound r u] ∧
      (ServeJSONAPI lib
        (NewReverseProxyHandler DefaultClient baseURL [setURLResolver f]) r s).client =
          (DefaultClient.Do (outbound r u) s).2.2) := by
  have hrun : ∀ u, lib.Parse (f ctx baseURL) = .ok u →
      (ServeJSONAPI lib (⟨f, baseURL, DefaultClient⟩ : ReverseProxyHandler σ) r s).calls =
        [outbound r u] ∧
      (ServeJSONAPI lib (⟨f, baseURL, DefaultClient⟩ : ReverseProxyHandler σ) r s).client =
        (DefaultClient.Do (outbound r u) s).2.2 := by
    intro u hu
    have h := ServeJSONAPI_applies_Do lib (⟨f, baseURL, DefaultClient⟩ : ReverseProxyHandler σ)
      r s ctx u hctx hu
    exact ⟨h.1, h.2.2⟩
  refine ⟨rfl, ?_, hrun⟩
  intro req hreq
  change req ∈ (ServeJSONAPI lib (⟨f, baseURL, DefaultClient⟩ : ReverseProxyHandler σ) r s).calls
    at hreq
  cases hp : lib.Parse (f ctx baseURL) with
  | error e =>
    have hrun := ServeJSONAPI_parse_error lib (⟨f, baseURL, DefaultClient⟩ : ReverseProxyHandler σ)
      r s ctx e hctx hp
    rw [hrun] at hreq
    cases hreq
  | ok u =>
    rw [(hrun u hp).1] at hreq
    simp only [List.mem_singleton] at hreq
    rw [hreq]
    rfl

/-- C2 on a strategy that ignores the access context: the only request goes to the URL the
strategy names, not to the one the default table would give. -/
theorem NewReverseProxyHandler_resolver_override_witness :
    (ServeJSONAPI sampleLib
      (NewReverseProxyHandler (sampleClient (.ok ⟨204, [], .ok []⟩)) "https://api.example.com"
        [setURLResolver (fun _ _ => "https://backend.internal/v2/items")])
      (sampleRequest false) 0).calls =
      [outbound (sampleRequest false) ⟨"https", "", "backend.internal", "/v2/items", "", ""⟩] :=
  ((NewReverseProxyHandler_resolver_override sampleLib (sampleClient (.ok ⟨204, [], .ok []⟩))
    "https://api.example.com" (fun _ _ => "https://backend.internal/v2/items")
    (sampleRequest false) 0 ⟨"widgets", some "42", some "owner", .fetch⟩ rfl).2.2
    ⟨"https", "", "backend.internal", "/v2/items", "", ""⟩ rfl).1

/-- C3: in an invocation in which resolution, transport, body read and decoding succeed,
the response that is returned maps every backend header name that has at least one
value to the first value of its list, whatever the order `res.Header` in which the
entries `entries` of the backend header map are ranged over; and a response is returned
whenever every name has a value. -/
theorem ServeJSONAPI_header_first_value {σ Document : Type} (lib : Lib Document)
    (p : ReverseProxyHandler σ) (r : Request) (s s1 : σ) (b1 : BodyReader) (ctx : RequestContext) (u : URL)
    (res : HttpResponse) (data : Bytes) (entries : Header)
    (hctx : GetContext r.ctx = some ctx)
    (hparse : lib.Parse (p.ResolveURL ctx p.BaseURL) = .ok u)
    (hdo : p.Client.Do (outbound r u) s = (.ok res, b1, s1))
    (hread : res.Body = .ok data)
    (hdec : data = [] ∨ ∃ d, lib.Unmarshal data = .ok d)
    (hnodup : (entries.map Prod.fst).Nodup) (hperm : res.Header.Perm entries) :
    (∀ resp, (ServeJSONAPI lib p r s).outcome = .returned (.translated resp) →
      ∀ k v vs, (k, v :: vs) ∈ entries → resp.Headers.get k = some v) ∧
    ((∀ kv ∈ entries, kv.2 ≠ []) →
      ∃ resp, (ServeJSONAPI lib p r s).outcome = .returned (.translated resp)) := by
  have hnd : (res.Header.map Prod.fst).Nodup := (hperm.map Prod.fst).nodup_iff.mpr hnodup
  constructor
  · intro resp hout k v vs hk
    have hk1 : (k, v :: vs) ∈ res.Header := hperm.mem_iff.mpr hk
    cases hcopy : copyHeaders res.Header [] with
    | error pn =>
      exfalso
      simp only [outbound] at hdo
      simp [ServeJSONAPI, hctx, hparse, hdo, hread, ioReadAll, outbound, NewResponse,
        hcopy] at hout
    | ok m =>
      have hget := copyHeaders_get_first res.Header [] m k v vs hnd hcopy hk1
      by_cases hdata : data = []
      · subst hdata
        rw [ServeJSONAPI_empty_body lib p r s s1 b1 ctx u res m hctx hparse hdo hread hcopy] at hout
        simp only [Outcome.returned.injEq, Reply.translated.injEq] at hout
        rw [← hout]
        exact hget
      · rcases hdec with h | ⟨d, hd⟩
        · exact absurd h hdata
        · rw [ServeJSONAPI_decoded lib p r s s1 b1 ctx u res data m d hctx hparse hdo hread hdata
            hcopy hd] at hout
          simp only [Outcome.returned.injEq, Reply.translated.injEq] at hout
          rw [← hout]
          exact hget
  · intro hne
    obtain ⟨m, hcopy⟩ := copyHeaders_ok res.Header []
      (fun kv hkv => hne kv (hperm.mem_iff.mp hkv))
    by_cases hdata : data = []
    · subst hdata
      exact ⟨_, by rw [ServeJSONAPI_empty_body lib p r s s1 b1 ctx u res m hctx hparse hdo hread
        hcopy]⟩
    · rcases hdec with h | ⟨d, hd⟩
      · exact absurd h hdata
      · exact ⟨_, by rw [ServeJSONAPI_decoded lib p r s s1 b1 ctx u res data m d hctx hparse hdo
          hread hdata hcopy hd]⟩

/-- C3 on a backend response with `X-Test: a, b` and a second header, ranged over in the
opposite order: a response is returned and it maps `X-Test` to `a`. -/
theorem ServeJSONAPI_header_first_value_witness :
    ∃ resp, (ServeJSONAPI sampleLib
        (NewReverseProxyHandler (sampleClient
          (.ok ⟨200, [("Content-Type", ["application/vnd.api+json"]), ("X-Test", ["a", "b"])],
            .ok []⟩)) "https://api.example.com" [])
        (sampleRequest false) 0).outcome = .returned (.translated resp) ∧
      resp.Headers.get "X-Test" = some "a" := by
  have h := ServeJSONAPI_header_first_value sampleLib
    (NewReverseProxyHandler (sampleClient
      (.ok ⟨200, [("Content-Type", ["application/vnd.api+json"]), ("X-Test", ["a", "b"])],
        .ok []⟩)) "https://api.example.com" [])
    (sampleRequest false) 0 1 ⟨[], false⟩ ⟨"widgets", some "42", some "owner", .fetch⟩
    ⟨"https", "", "api.example.com", "/widgets/42", "", ""⟩
    ⟨200, [("Content-Type", ["application/vnd.api+json"]), ("X-Test", ["a", "b"])], .ok []⟩ []
    [("X-Test", ["a", "b"]), ("Content-Type", ["application/vnd.api+json"])]
    rfl rfl rfl rfl (Or.inl rfl) (by decide) (List.Perm.swap _ _ _)
  obtain ⟨resp, hresp⟩ := h.2 (by decide)
  exact ⟨resp, hresp, h.1 resp hresp "X-Test" "a" ["b"] (by decide)⟩

/-- C6: when the resolved URL parses and `Do` returns an error `e`, `ServeJSONAPI` returns
`response.InternalError(e)` and `Do` has been called exactly once, with the outbound
request; and in every invocation whatsoever `Do` is called at most once. -/
theorem ServeJSONAPI_transport_failure {σ Document : Type} (lib : Lib Document)
    (p : ReverseProxyHandler σ) (r : Request) (s : σ) :
    (∀ ctx u e b1 s1, GetContext r.ctx = some ctx →
      lib.Parse (p.ResolveURL ctx p.BaseURL) = .ok u →
      p.Client.Do (outbound r u) s = (.error e, b1, s1) →
      (ServeJSONAPI lib p r s).outcome = .returned (.InternalError e) ∧
      (ServeJSONAPI lib p r s).calls = [outbound r u] ∧
      (ServeJSONAPI lib p r s).calls.length = 1 ∧
      (ServeJSONAPI lib p r s).client = s1) ∧
    (ServeJSONAPI lib p r s).calls.length ≤ 1 := by
  refine ⟨?_, (ServeJSONAPI_calls_le_one lib p r s).1⟩
  intro ctx u e b1 s1 hctx hparse hdo
  rw [ServeJSONAPI_do_error lib p r s s1 b1 ctx u e hctx hparse hdo]
  exact ⟨rfl, rfl, rfl, rfl⟩

/-- C6 on a transport client that refuses the connection: the internal error carries the
transport error and the client has counted one call. -/
theorem ServeJSONAPI_transport_failure_witness :
    (ServeJSONAPI sampleLib
      (NewReverseProxyHandler (sampleClient (.error "connection refused"))
        "https://api.example.com" [])
      (sampleRequest false) 0).outcome = .returned (.InternalError "connection refused") ∧
    (ServeJSONAPI sampleLib
      (NewReverseProxyHandler (sampleClient (.error "connection refused"))
        "https://api.example.com" [])
      (sampleRequest false) 0).calls.length = 1 ∧
    (ServeJSONAPI sampleLib
      (NewReverseProxyHandler (sampleClient (.error "connection refused"))
        "https://api.example.com" [])
      (sampleRequest false) 0).client = 1 :=
  have h := (ServeJSONAPI_transport_failure sampleLib
    (NewReverseProxyHandler (sampleClient (.error "connection refused"))
      "https://api.example.com" [])
    (sampleRequest false) 0).1 ⟨"widgets", some "42", some "owner", .fetch⟩
    ⟨"https", "", "api.example.com", "/widgets/42", "", ""⟩ "connection refused" ⟨[], false⟩ 1
    rfl rfl rfl
  ⟨h.1, h.2.2.1, h.2.2.2⟩

/-- C7, as the code has it: when `url.Parse` rejects the string the resolution strategy
produces, with error `e`, `ServeJSONAPI` returns `response.InternalError(e)` and the
transport client is never used. -/
theorem ServeJSONAPI_unparseable_url {σ Document : Type} (lib : Lib Document)
    (p : ReverseProxyHandler σ) (r : Request) (s : σ) (ctx : RequestContext) (e : GoError)
    (hctx : GetContext r.ctx = some ctx)
    (hparse : lib.Parse (p.ResolveURL ctx p.BaseURL) = .error e) :
    (ServeJSONAPI lib p r s).outcome = .returned (.InternalError e) ∧
    (ServeJSONAPI lib p r s).calls = [] ∧
    (ServeJSONAPI lib p r s).client = s := by
  rw [ServeJSONAPI_parse_error lib p r s ctx e hctx hparse]
  exact ⟨rfl, rfl, rfl⟩

/-- C7, as the code has it, on a strategy that produces `:80/widgets`, which `url.Parse`
rejects for its missing scheme: the internal error carries the `url.Error`. -/
theorem ServeJSONAPI_unparseable_url_witness :
    (ServeJSONAPI sampleLib
      (NewReverseProxyHandler (sampleClient (.ok ⟨204, [], .ok []⟩)) "https://api.example.com"
        [setURLResolver (fun _ _ => ":80/widgets")])
      (sampleRequest false) 0).outcome =
        .returned (.InternalError "parse \":80/widgets\": missing protocol scheme") ∧
    (ServeJSONAPI sampleLib
      (NewReverseProxyHandler (sampleClient (.ok ⟨204, [], .ok []⟩)) "https://api.example.com"
        [setURLResolver (fun _ _ => ":80/widgets")])
      (sampleRequest false) 0).calls = [] :=
  have h := ServeJSONAPI_unparseable_url sampleLib
    (NewReverseProxyHandler (sampleClient (.ok ⟨204, [], .ok []⟩)) "https://api.example.com"
      [setURLResolver (fun _ _ => ":80/widgets")])
    (sampleRequest false) 0 ⟨"widgets", some "42", some "owner", .fetch⟩
    "parse \":80/widgets\": missing protocol scheme" rfl rfl
  ⟨h.1, h.2.1⟩

/-- C7 as stated fails: the relative path `widgets/42` and the empty string are not valid
absolute URLs, yet `url.Parse` accepts both, so `ServeJSONAPI` hands the request to the
transport client and returns the translated backend response, not an internal error. -/
theorem ServeJSONAPI_relative_url_forwarded :
    isValidAbsoluteURL sampleLib.Parse "widgets/42" = false ∧
    (ServeJSONAPI sampleLib
      (NewReverseProxyHandler (sampleClient (.ok ⟨204, [], .ok []⟩)) "https://api.example.com"
        [setURLResolver (fun _ _ => "widgets/42")])
      (sampleRequest false) 0).calls =
        [outbound (sampleRequest false) ⟨"", "", "", "widgets/42", "", ""⟩] ∧
    (ServeJSONAPI sampleLib
      (NewReverseProxyHandler (sampleClient (.ok ⟨204, [], .ok []⟩)) "https://api.example.com"
        [setURLResolver (fun _ _ => "widgets/42")])
      (sampleRequest false) 0).outcome = .returned (.translated ⟨204, [], none⟩) ∧
    isValidAbsoluteURL sampleLib.Parse "" = false ∧
    (ServeJSONAPI sampleLib
      (NewReverseProxyHandler (sampleClient (.ok ⟨204, [], .ok []⟩)) "https://api.example.com"
        [setURLResolver (fun _ _ => "")])
      (sampleRequest false) 0).calls =
        [outbound (sampleRequest false) ⟨"", "", "", "", "", ""⟩] ∧
    (ServeJSONAPI sampleLib
      (NewReverseProxyHandler (sampleClient (.ok ⟨204, [], .ok []⟩)) "https://api.example.com"
        [setURLResolver (fun _ _ => "")])
      (sampleRequest false) 0).outcome = .returned (.translated ⟨204, [], none⟩) :=
  ⟨rfl, rfl, rfl, rfl, rfl, rfl⟩

/-- C8, as the code has it: when the resolved URL parses, the one request handed to `Do`
has the method, headers and body reader of `r`, the parsed resolved URL and a background
context; it is the same request, with the same outcome, whether or not the context of
`r` is cancelled; and after the invocation `r` has its method, URL, headers and context
unchanged, while its body reader, which the outbound request shares, is in the state in
which that one application of `Do` left it. -/
theorem ServeJSONAPI_outbound_request {σ Document : Type} (lib : Lib Document)
    (p : ReverseProxyHandler σ) (r : Request) (s : σ) (ctx : RequestContext) (u : URL)
    (hctx : GetContext r.ctx = some ctx)
    (hparse : lib.Parse (p.ResolveURL ctx p.BaseURL) = .ok u) :
    (ServeJSONAPI lib p r s).calls =
      [⟨r.Method, u, r.Header, r.Body, Context.Background⟩] ∧
    (ServeJSONAPI lib p r s).inbound =
      ⟨r.Method, r.URL, r.Header,
        (p.Client.Do ⟨r.Method, u, r.Header, r.Body, Context.Background⟩ s).2.1, r.ctx⟩ ∧
    (ServeJSONAPI lib p r s).client =
      (p.Client.Do ⟨r.Method, u, r.Header, r.Body, Context.Background⟩ s).2.2 ∧
    (∀ c : Bool,
      (ServeJSONAPI lib p (withCancelled r c) s).calls =
        [⟨r.Method, u, r.Header, r.Body, Context.Background⟩] ∧
      (ServeJSONAPI lib p (withCancelled r c) s).outcome = (ServeJSONAPI lib p r s).outcome ∧
      (ServeJSONAPI lib p (withCancelled r c) s).inbound =
        withCancelled (ServeJSONAPI lib p r s).inbound c) := by
  have h := ServeJSONAPI_applies_Do lib p r s ctx u hctx hparse
  refine ⟨h.1, h.2.1, h.2.2, ?_⟩
  intro c
  have hc := ServeJSONAPI_withCancelled lib p r s c
  exact ⟨hc.2.1.trans h.1, hc.1, hc.2.2.2.2⟩

/-- C8, as the code has it, on a POST with a body and a cancelled inbound context, through a
transport that reads the body: the outbound request keeps method, headers and body,
targets the resolved URL and is not cancelled, and the inbound request keeps everything
but the content of its body reader. -/
theorem ServeJSONAPI_outbound_request_witness :
    (ServeJSONAPI sampleLib
      (NewReverseProxyHandler (drainingClient (.ok ⟨201, [], .ok []⟩)) "https://api.example.com"
        [])
      ⟨"POST", ⟨"", "", "", "/widgets", "", ""⟩, [("Content-Type", ["application/vnd.api+json"])],
        ⟨[0x7b, 0x7d], false⟩, ⟨some ⟨"widgets", none, none, .create⟩, true⟩⟩ 0).calls =
      [⟨"POST", ⟨"https", "", "api.example.com", "/widgets", "", ""⟩,
        [("Content-Type", ["application/vnd.api+json"])], ⟨[0x7b, 0x7d], false⟩,
        ⟨none, false⟩⟩] ∧
    (ServeJSONAPI sampleLib
      (NewReverseProxyHandler (drainingClient (.ok ⟨201, [], .ok []⟩)) "https://api.example.com"
        [])
      ⟨"POST", ⟨"", "", "", "/widgets", "", ""⟩, [("Content-Type", ["application/vnd.api+json"])],
        ⟨[0x7b, 0x7d], false⟩, ⟨some ⟨"widgets", none, none, .create⟩, true⟩⟩ 0).inbound =
      ⟨"POST", ⟨"", "", "", "/widgets", "", ""⟩, [("Content-Type", ["application/vnd.api+json"])],
        ⟨[], true⟩, ⟨some ⟨"widgets", none, none, .create⟩, true⟩⟩ :=
  have h := ServeJSONAPI_outbound_request sampleLib
    (NewReverseProxyHandler (drainingClient (.ok ⟨201, [], .ok []⟩)) "https://api.example.com" [])
    ⟨"POST", ⟨"", "", "", "/widgets", "", ""⟩, [("Content-Type", ["application/vnd.api+json"])],
      ⟨[0x7b, 0x7d], false⟩, ⟨some ⟨"widgets", none, none, .create⟩, true⟩⟩ 0
    ⟨"widgets", none, none, .create⟩ ⟨"https", "", "api.example.com", "/widgets", "", ""⟩
    rfl rfl
  ⟨h.1, h.2.1⟩

/-- C8 as stated fails: the clone shares the body reader of `r`, so after a transport that
reads the outbound body the inbound request is not what it was; its body is drained and
closed. -/
theorem ServeJSONAPI_inbound_body_drained :
    (ServeJSONAPI sampleLib
      (NewReverseProxyHandler (drainingClient (.ok ⟨201, [], .ok []⟩)) "https://api.example.com"
        [])
      ⟨"POST", ⟨"", "", "", "/widgets", "", ""⟩, [("Content-Type", ["application/vnd.api+json"])],
        ⟨[0x7b, 0x7d], false⟩, ⟨some ⟨"widgets", none, none, .create⟩, false⟩⟩ 0).inbound.Body =
      ⟨[], true⟩ ∧
    (ServeJSONAPI sampleLib
      (NewReverseProxyHandler (drainingClient (.ok ⟨201, [], .ok []⟩)) "https://api.example.com"
        [])
      ⟨"POST", ⟨"", "", "", "/widgets", "", ""⟩, [("Content-Type", ["application/vnd.api+json"])],
        ⟨[0x7b, 0x7d], false⟩, ⟨some ⟨"widgets", none, none, .create⟩, false⟩⟩ 0).inbound ≠
      ⟨"POST", ⟨"", "", "", "/widgets", "", ""⟩, [("Content-Type", ["application/vnd.api+json"])],
        ⟨[0x7b, 0x7d], false⟩, ⟨some ⟨"widgets", none, none, .create⟩, false⟩⟩ :=
  ⟨rfl, by decide⟩

/-- C4 at a backend response with status 204, an empty body and the header map
`X-Empty: []`: the header-copy loop indexes the empty value list and `ServeJSONAPI`
panics instead of returning status 204 with an absent body.  With a value in the list
the same response yields status 204, the copied header, no body, and no decoder call. -/
theorem ServeJSONAPI_empty_body_valueless_header :
    (ServeJSONAPI sampleLib
      (NewReverseProxyHandler (sampleClient (.ok ⟨204, [("X-Empty", [])], .ok []⟩))
        "https://api.example.com" [])
      (sampleRequest false) 0).outcome = .panicked .indexOutOfRange ∧
    (ServeJSONAPI sampleLib
      (NewReverseProxyHandler (sampleClient (.ok ⟨204, [("X-Empty", [""])], .ok []⟩))
        "https://api.example.com" [])
      (sampleRequest false) 0).outcome =
        .returned (.translated ⟨204, [("X-Empty", "")], none⟩) ∧
    (ServeJSONAPI sampleLib
      (NewReverseProxyHandler (sampleClient (.ok ⟨204, [("X-Empty", [""])], .ok []⟩))
        "https://api.example.com" [])
      (sampleRequest false) 0).decodes = [] :=
  ⟨rfl, rfl, rfl⟩

/-- C5 at a backend response with status 200, the one-byte body of an opening brace, which
the decoder rejects, and the header map `X-Empty: []`: `ServeJSONAPI` panics in the
header-copy loop before the decoder is reached, instead of returning the internal error of
the decoder.  With a value in the list the same response yields that internal error. -/
theorem ServeJSONAPI_malformed_body_valueless_header :
    sampleLib.Unmarshal [0x7b] = .error "unexpected end of JSON input" ∧
    (ServeJSONAPI sampleLib
      (NewReverseProxyHandler (sampleClient (.ok ⟨200, [("X-Empty", [])], .ok [0x7b]⟩))
        "https://api.example.com" [])
      (sampleRequest false) 0).outcome = .panicked .indexOutOfRange ∧
    (ServeJSONAPI sampleLib
      (NewReverseProxyHandler (sampleClient (.ok ⟨200, [("X-Empty", [])], .ok [0x7b]⟩))
        "https://api.example.com" [])
      (sampleRequest false) 0).decodes = [] ∧
    (ServeJSONAPI sampleLib
      (NewReverseProxyHandler (sampleClient (.ok ⟨200, [("X-Empty", [""])], .ok [0x7b]⟩))
        "https://api.example.com" [])
      (sampleRequest false) 0).outcome =
        .returned (.InternalError "unexpected end of JSON input") :=
  ⟨rfl, rfl, rfl, rfl⟩

/-- C9 at a backend response with status 404, a body that decodes and the header map
`X-Empty: []`: `ServeJSONAPI` panics in the header-copy loop instead of returning status
404 with the decoded document.  With a value in the list the same response yields status
404 and the decoded document. -/
theorem ServeJSONAPI_status_passthrough_valueless_header :
    sampleLib.Unmarshal [0x7b, 0x7d] = .ok .empty ∧
    (ServeJSONAPI sampleLib
      (NewReverseProxyHandler (sampleClient (.ok ⟨404, [("X-Empty", [])], .ok [0x7b, 0x7d]⟩))
        "https://api.example.com" [])
      (sampleRequest false) 0).outcome = .panicked .indexOutOfRange ∧
    (ServeJSONAPI sampleLib
      (NewReverseProxyHandler (sampleClient (.ok ⟨404, [("X-Empty", [""])], .ok [0x7b, 0x7d]⟩))
        "https://api.example.com" [])
      (sampleRequest false) 0).outcome =
        .returned (.translated ⟨404, [("X-Empty", "")], some .empty⟩) :=
  ⟨rfl, rfl, rfl⟩

/-- C10 at a backend response whose header map holds `Content-Type` with a value and
`X-Empty` with none, in either order of iteration: the header-copy loop indexes the empty
list and `ServeJSONAPI` panics with an index out of range; no response is returned. -/
theorem ServeJSONAPI_valueless_header_panics :
    (ServeJSONAPI sampleLib
      (NewReverseProxyHandler (sampleClient
        (.ok ⟨200, [("Content-Type", ["application/vnd.api+json"]), ("X-Empty", [])],
          .ok [0x7b, 0x7d]⟩)) "https://api.example.com" [])
      (sampleRequest false) 0).outcome = .panicked .indexOutOfRange ∧
    (ServeJSONAPI sampleLib
      (NewReverseProxyHandler (sampleClient
        (.ok ⟨200, [("X-Empty", []), ("Content-Type", ["application/vnd.api+json"])],
          .ok [0x7b, 0x7d]⟩)) "https://api.example.com" [])
      (sampleRequest false) 0).outcome = .panicked .indexOutOfRange :=
  ⟨rfl, rfl⟩

end Proxy
